import Mathlib

/-!
Verification development for the bt repository test firmware.

The repository ships two Arduino/ESP32 BLE peripheral sketches:

* `src/ble.ino` — "computed-on-access read" variant: a write is echoed to
  the notify characteristic immediately, a read increments a global counter
  and serves it as decimal text.
* `src/arduino_test/bt_test.ino` — "echo" variant: a write is mirrored into
  the read characteristic, and a cooperative main loop sends periodic
  `tick:<n>` notifications while a client is connected, restarting
  advertising 500 ms after a disconnect is observed.

Both sketches are shallowly embedded below.  Characteristic values are byte
sequences (`List Nat`); Arduino `String` values built from a `const char *`
truncate at the first NUL byte, which `cStr` models; `uint32_t` /
`unsigned long` arithmetic is carried out modulo `2 ^ 32`.  The radio stack
delivers connect / disconnect / write events asynchronously; the main loop
runs as explicit `loopIter` events carrying the value `millis()` would
return.  Side effects (notify transmissions, OLED updates, serial prints,
blocking delays) are recorded as output events.
-/

set_option maxRecDepth 100000

/-- Byte sequences: the contents of characteristic values and messages. -/
abbrev Bytes := List Nat

/-- Bytes of an ASCII/Unicode string literal (code points as numbers). -/
def str2bytes (s : String) : Bytes := s.data.map Char.toNat

/-- Conversion of a byte buffer through a C string pointer: everything up to
the first NUL byte.  This is what `String value = x.c_str()` and
`setValue(const char *)` see. -/
def cStr (b : Bytes) : Bytes := b.takeWhile (fun x => x != 0)

/-- Decimal digits (as ASCII bytes) of `n`, most significant first; `fuel`
bounds the recursion and `n + 1` is always enough. -/
def natDecChars : Nat → Nat → Bytes
  | 0, _ => []
  | fuel + 1, n =>
    if n < 10 then [48 + n]
    else natDecChars fuel (n / 10) ++ [48 + n % 10]

/-- Decimal text of `n`, as produced by `String(n)` on a counter value. -/
def natDecBytes (n : Nat) : Bytes := natDecChars (n + 1) n

/-- Modulus of 32-bit unsigned arithmetic (`uint32_t`, `unsigned long`). -/
def U32 : Nat := 2 ^ 32

namespace BtTest

/-- Global mutable state of `src/arduino_test/bt_test.ino`: the connection
flags, the shared counter, `lastWritten`, the stored values of the read and
notify characteristics, and the scheduler reference time `lastNotifyTime`. -/
structure St where
  deviceConnected : Bool
  oldDeviceConnected : Bool
  counter : Nat
  lastWritten : Bytes
  readCharVal : Bytes
  notifyCharVal : Bytes
  lastNotifyTime : Nat
deriving Repr, DecidableEq

/-- Input events: radio-stack callbacks plus one main-loop iteration at a
given `millis()` value. -/
inductive Ev where
  | connect
  | disconnect
  | write (v : Bytes)
  | loopIter (now : Nat)
deriving Repr, DecidableEq

/-- Observable side effects of a step. -/
inductive Out where
  | notifySend (v : Bytes)
  | displayShow (connected : Bool) (l1 l2 l3 : Bytes)
  | advRestart
  | logB (s : Bytes)
  | delayMs (n : Nat)
deriving Repr, DecidableEq

/-- `const unsigned long NOTIFY_INTERVAL = 2000;` -/
def NOTIFY_INTERVAL : Nat := 2000

/-- State right after `setup()`: flags cleared, `counter = 0`,
`lastWritten = "hello"`, the read characteristic initialised from
`lastWritten.c_str()`, the notify characteristic left at its empty default
(`setup` never sets it), `lastNotifyTime = 0`. -/
def init : St :=
  { deviceConnected := false
    oldDeviceConnected := false
    counter := 0
    lastWritten := str2bytes "hello"
    readCharVal := cStr (str2bytes "hello")
    notifyCharVal := []
    lastNotifyTime := 0 }

/-- `MyServerCallbacks::onConnect`. -/
def onConnect (s : St) : St × List Out :=
  let s1 := { s with deviceConnected := true }
  (s1,
   [Out.logB (str2bytes ">> Client connected!"),
    Out.displayShow s1.deviceConnected (str2bytes "Client connected!") [] []])

/-- `MyServerCallbacks::onDisconnect`. -/
def onDisconnect (s : St) : St × List Out :=
  let s1 := { s with deviceConnected := false }
  (s1,
   [Out.logB (str2bytes ">> Client disconnected."),
    Out.displayShow s1.deviceConnected (str2bytes "Disconnected.")
      (str2bytes "Restarting ads...") []])

/-- `WriteCallbacks::onWrite`: `String value = pCharacteristic->getValue().c_str();`
truncates the raw payload at the first NUL; a non-empty result is stored in
`lastWritten`, mirrored into the read characteristic via
`setValue(lastWritten.c_str())`, logged and displayed; an empty result does
nothing. -/
def onWrite (s : St) (raw : Bytes) : St × List Out :=
  let value := cStr raw
  if value.length > 0 then
    let s1 := { s with lastWritten := value, readCharVal := cStr value }
    (s1,
     [Out.logB (str2bytes ">> Received write: " ++ value),
      Out.displayShow s1.deviceConnected (str2bytes "WRITE received:") value []])
  else (s, [])

/-- `now - lastNotifyTime` in `unsigned long` (32-bit wraparound)
arithmetic. -/
def elapsed (last now : Nat) : Nat := (now % U32 + U32 - last % U32) % U32

/-- The raw `"tick:" + String(counter)` message composed by the loop. -/
def tickRaw (n : Nat) : Bytes := str2bytes "tick:" ++ natDecBytes n

/-- First half of `loop()`: while connected and at least `NOTIFY_INTERVAL`
past `lastNotifyTime`, reset the reference time, increment the counter, set
the notify characteristic from `msg.c_str()`, transmit it, log and refresh
the display with the message and `lastWritten`. -/
def notifyPhase (s : St) (now : Nat) : St × List Out :=
  if s.deviceConnected = true ∧ NOTIFY_INTERVAL ≤ elapsed s.lastNotifyTime now then
    let c := (s.counter + 1) % U32
    let msg := tickRaw c
    let nv := cStr msg
    ({ s with lastNotifyTime := now % U32, counter := c, notifyCharVal := nv },
     [Out.notifySend nv,
      Out.logB (str2bytes "<< Sent notify: " ++ msg),
      Out.displayShow s.deviceConnected (str2bytes "NOTIFY sent:") msg
        (str2bytes "Last write: " ++ s.lastWritten)])
  else (s, [])

/-- Second half of `loop()`: on observing a disconnect (`!deviceConnected`
with `oldDeviceConnected` still set) block for 500 ms, restart advertising,
log and display, and clear `oldDeviceConnected`; then latch
`oldDeviceConnected` when a fresh connection is observed. -/
def reconnPhase (s : St) : St × List Out :=
  let q :=
    if s.deviceConnected = false ∧ s.oldDeviceConnected = true then
      ({ s with oldDeviceConnected := false },
       [Out.delayMs 500,
        Out.advRestart,
        Out.logB (str2bytes "Restarted advertising..."),
        Out.displayShow s.deviceConnected (str2bytes "Advertising...")
          (str2bytes "Name: BT_Test") []])
    else (s, [])
  let s2 :=
    if q.1.deviceConnected = true ∧ q.1.oldDeviceConnected = false then
      { q.1 with oldDeviceConnected := true }
    else q.1
  (s2, q.2)

/-- One iteration of `loop()` at time `now`, ending in `delay(10)`. -/
def loopStep (s : St) (now : Nat) : St × List Out :=
  let p1 := notifyPhase s now
  let p2 := reconnPhase p1.1
  (p2.1, p1.2 ++ p2.2 ++ [Out.delayMs 10])

/-- Dispatch of one event. -/
def step (s : St) : Ev → St × List Out
  | Ev.connect => onConnect s
  | Ev.disconnect => onDisconnect s
  | Ev.write v => onWrite s v
  | Ev.loopIter now => loopStep s now

/-- Run a sequence of events, collecting all outputs. -/
def run (s : St) : List Ev → St × List Out
  | [] => (s, [])
  | e :: es =>
    let r1 := step s e
    let r2 := run r1.1 es
    (r2.1, r1.2 ++ r2.2)

/-- Instrumented run: for each event, the state it was applied to, the event
itself, and the outputs it produced. -/
def runTr (s : St) : List Ev → List (St × Ev × List Out)
  | [] => []
  | e :: es => (s, e, (step s e).2) :: runTr (step s e).1 es

/-- The notification payloads among a list of outputs. -/
def notifySends (outs : List Out) : List Bytes :=
  outs.filterMap fun o =>
    match o with
    | Out.notifySend v => some v
    | _ => none

/-- `true` iff the event list contains any write event. -/
def hasWrite : List Ev → Bool
  | [] => false
  | Ev.write _ :: _ => true
  | _ :: es => hasWrite es

/-- `true` iff the event list contains a write whose payload survives the
C-string truncation non-empty, i.e. a write the handler accepts. -/
def hasAcceptedWrite : List Ev → Bool
  | [] => false
  | Ev.write w :: es =>
    if (cStr w).length > 0 then true else hasAcceptedWrite es
  | _ :: es => hasAcceptedWrite es

/-- `true` iff the event list contains a connect event. -/
def hasConnect : List Ev → Bool
  | [] => false
  | Ev.connect :: _ => true
  | _ :: es => hasConnect es

end BtTest

namespace BleIno

/-- Global mutable state of `src/ble.ino`: the shared counter (a C `int`,
modelled on `Nat`; the sketch only ever increments it, and signed overflow
is undefined behaviour, so the model is faithful below `INT_MAX`),
`lastWritten`, and the stored values of the read and notify
characteristics. -/
structure St where
  counter : Nat
  lastWritten : Bytes
  readCharVal : Bytes
  notifyCharVal : Bytes
deriving Repr, DecidableEq

/-- Input events delivered by the radio stack: a write to the write
characteristic, or a read access to the read characteristic.  The sketch
has no connection callbacks, and its `loop()` only sleeps. -/
inductive Ev where
  | write (v : Bytes)
  | read
deriving Repr, DecidableEq

/-- Observable side effects of a step. -/
inductive Out where
  | notifySend (v : Bytes)
  | displayLines (ls : List Bytes)
  | logB (s : Bytes)
deriving Repr, DecidableEq

/-- Global-initialiser state before `setup()` runs: `counter = 0`,
`lastWritten = "Ready to receive"`, both characteristic values still at the
empty default of a freshly created characteristic. -/
def preSetup : St :=
  { counter := 0
    lastWritten := str2bytes "Ready to receive"
    readCharVal := []
    notifyCharVal := [] }

/-- `setup()`: `pReadChar->setValue("0")` and
`pNotifyChar->setValue("waiting...")`. -/
def setup (s : St) : St :=
  { s with readCharVal := str2bytes "0", notifyCharVal := str2bytes "waiting..." }

/-- State at the end of startup. -/
def init : St := setup preSetup

/-- `WriteCallbacks::onWrite`: a non-empty payload is stored in
`lastWritten`, logged, displayed together with the current counter, copied
into the notify characteristic with an explicit length
(`setValue((uint8_t *)value.c_str(), value.length())`, so NUL bytes
survive) and transmitted with `notify()`; an empty payload does nothing. -/
def onWrite (s : St) (v : Bytes) : St × List Out :=
  if v.length > 0 then
    let s1 := { s with lastWritten := v, notifyCharVal := v }
    (s1,
     [Out.logB (str2bytes "Written: " ++ v),
      Out.displayLines
        [str2bytes "BT Write Received:", v, [],
         str2bytes "Counter: " ++ natDecBytes s.counter],
      Out.notifySend v])
  else (s, [])

/-- `ReadCallbacks::onRead`: increment the counter, serialise it as decimal
text, install that text as the characteristic value served to the reader
(with an explicit length), and log the access.  Returns the new state, the
bytes the read yields, and the outputs. -/
def onRead (s : St) : St × Bytes × List Out :=
  let c := s.counter + 1
  let cs := natDecBytes c
  ({ s with counter := c, readCharVal := cs }, cs,
   [Out.logB (str2bytes "Read: " ++ cs)])

/-- Dispatch of one event. -/
def step (s : St) : Ev → St × List Out
  | Ev.write v => onWrite s v
  | Ev.read =>
    let r := onRead s
    (r.1, r.2.2)

/-- Run a sequence of events, collecting all outputs. -/
def run (s : St) : List Ev → St × List Out
  | [] => (s, [])
  | e :: es =>
    let r1 := step s e
    let r2 := run r1.1 es
    (r2.1, r1.2 ++ r2.2)

/-- Number of read accesses in an event list. -/
def countReads : List Ev → Nat
  | [] => 0
  | Ev.read :: es => countReads es + 1
  | Ev.write _ :: es => countReads es

end BleIno

/-! ## Helper lemmas -/

theorem cStr_of_ne_zero : ∀ l : Bytes, (∀ b ∈ l, b ≠ 0) → cStr l = l := by
  intro l h
  induction l with
  | nil => rfl
  | cons a l ih =>
    have ha : a ≠ 0 := h a (List.mem_cons_self a l)
    have ha2 : (a != 0) = true := by simpa using ha
    simp only [cStr, List.takeWhile, ha2]
    have := ih fun b hb => h b (List.mem_cons_of_mem a hb)
    simpa [cStr] using this

theorem natDecChars_ge : ∀ fuel n b, b ∈ natDecChars fuel n → 48 ≤ b := by
  intro fuel
  induction fuel with
  | zero => intro n b hb; simp [natDecChars] at hb
  | succ fuel ih =>
    intro n b hb
    by_cases hn : n < 10
    · simp [natDecChars, hn] at hb
      omega
    · simp [natDecChars, hn] at hb
      rcases hb with hb | hb
      · exact ih _ _ hb
      · omega

theorem natDecBytes_ne_zero (n b : Nat) (hb : b ∈ natDecBytes n) : b ≠ 0 := by
  have := natDecChars_ge (n + 1) n b hb
  omega

theorem cStr_tickRaw (n : Nat) : cStr (BtTest.tickRaw n) = BtTest.tickRaw n := by
  apply cStr_of_ne_zero
  intro b hb
  rcases List.mem_append.mp hb with hb | hb
  · have hall : ∀ b ∈ str2bytes "tick:", b ≠ 0 := by decide
    exact hall b hb
  · exact natDecBytes_ne_zero n b hb

theorem BtTest.notifySends_append (a b : List BtTest.Out) :
    BtTest.notifySends (a ++ b) = BtTest.notifySends a ++ BtTest.notifySends b := by
  simp [BtTest.notifySends]

theorem BtTest.notifyPhase_neg (s : BtTest.St) (now : Nat)
    (h : ¬(s.deviceConnected = true ∧
        BtTest.NOTIFY_INTERVAL ≤ BtTest.elapsed s.lastNotifyTime now)) :
    BtTest.notifyPhase s now = (s, []) := by
  simp only [BtTest.notifyPhase, if_neg h]

theorem BtTest.notifyPhase_pos (s : BtTest.St) (now : Nat)
    (h1 : s.deviceConnected = true)
    (h2 : BtTest.NOTIFY_INTERVAL ≤ BtTest.elapsed s.lastNotifyTime now) :
    BtTest.notifyPhase s now =
      ({ s with
          lastNotifyTime := now % U32
          counter := (s.counter + 1) % U32
          notifyCharVal := BtTest.tickRaw ((s.counter + 1) % U32) },
       [BtTest.Out.notifySend (BtTest.tickRaw ((s.counter + 1) % U32)),
        BtTest.Out.logB (str2bytes "<< Sent notify: " ++ BtTest.tickRaw ((s.counter + 1) % U32)),
        BtTest.Out.displayShow true (str2bytes "NOTIFY sent:")
          (BtTest.tickRaw ((s.counter + 1) % U32))
          (str2bytes "Last write: " ++ s.lastWritten)]) := by
  simp only [BtTest.notifyPhase, cStr_tickRaw, h1, true_and]
  rw [if_pos h2]

theorem BtTest.reconnPhase_state (s : BtTest.St) :
    (BtTest.reconnPhase s).1.counter = s.counter ∧
    (BtTest.reconnPhase s).1.lastNotifyTime = s.lastNotifyTime ∧
    (BtTest.reconnPhase s).1.notifyCharVal = s.notifyCharVal ∧
    (BtTest.reconnPhase s).1.readCharVal = s.readCharVal ∧
    (BtTest.reconnPhase s).1.lastWritten = s.lastWritten ∧
    (BtTest.reconnPhase s).1.deviceConnected = s.deviceConnected ∧
    BtTest.notifySends (BtTest.reconnPhase s).2 = [] := by
  by_cases hA : s.deviceConnected = false ∧ s.oldDeviceConnected = true
  · simp only [BtTest.reconnPhase, if_pos hA]
    by_cases hB : s.deviceConnected = true
    · exact absurd hB (by simp [hA.1])
    · simp [hA.1, BtTest.notifySends]
  · simp only [BtTest.reconnPhase, if_neg hA]
    by_cases hB : s.deviceConnected = true ∧ s.oldDeviceConnected = false
    · simp [hB, BtTest.notifySends]
    · simp [hB, BtTest.notifySends]

theorem BtTest.reconnPhase_pos (s : BtTest.St)
    (h1 : s.deviceConnected = false) (h2 : s.oldDeviceConnected = true) :
    BtTest.reconnPhase s =
      ({ s with oldDeviceConnected := false },
       [BtTest.Out.delayMs 500, BtTest.Out.advRestart,
        BtTest.Out.logB (str2bytes "Restarted advertising..."),
        BtTest.Out.displayShow false (str2bytes "Advertising...")
          (str2bytes "Name: BT_Test") []]) := by
  simp only [BtTest.reconnPhase, if_pos (And.intro h1 h2)]
  rw [if_neg (by simp [h1])]
  rw [h1]

theorem BtTest.loopStep_notifySends (s : BtTest.St) (now : Nat) :
    BtTest.notifySends (BtTest.loopStep s now).2 =
      if s.deviceConnected = true ∧ BtTest.NOTIFY_INTERVAL ≤ BtTest.elapsed s.lastNotifyTime now
      then [BtTest.tickRaw ((s.counter + 1) % U32)] else [] := by
  by_cases hg : s.deviceConnected = true ∧
      BtTest.NOTIFY_INTERVAL ≤ BtTest.elapsed s.lastNotifyTime now
  · rw [if_pos hg]
    simp only [BtTest.loopStep, BtTest.notifyPhase_pos s now hg.1 hg.2]
    rw [BtTest.notifySends_append, BtTest.notifySends_append]
    rw [(BtTest.reconnPhase_state _).2.2.2.2.2.2]
    rfl
  · rw [if_neg hg]
    simp only [BtTest.loopStep, BtTest.notifyPhase_neg s now hg]
    rw [BtTest.notifySends_append, BtTest.notifySends_append]
    rw [(BtTest.reconnPhase_state _).2.2.2.2.2.2]
    rfl

theorem BtTest.loopStep_no_tick (s : BtTest.St) (now : Nat)
    (h : ¬(s.deviceConnected = true ∧
        BtTest.NOTIFY_INTERVAL ≤ BtTest.elapsed s.lastNotifyTime now)) :
    (BtTest.loopStep s now).1.counter = s.counter ∧
    (BtTest.loopStep s now).1.lastNotifyTime = s.lastNotifyTime ∧
    (BtTest.loopStep s now).1.notifyCharVal = s.notifyCharVal ∧
    (BtTest.loopStep s now).1.readCharVal = s.readCharVal ∧
    (BtTest.loopStep s now).1.lastWritten = s.lastWritten := by
  simp only [BtTest.loopStep, BtTest.notifyPhase_neg s now h]
  have hr := BtTest.reconnPhase_state s
  exact ⟨hr.1, hr.2.1, hr.2.2.1, hr.2.2.2.1, hr.2.2.2.2.1⟩

theorem BtTest.step_notify_connected (s : BtTest.St) (e : BtTest.Ev) (v : Bytes)
    (h : BtTest.Out.notifySend v ∈ (BtTest.step s e).2) : s.deviceConnected = true := by
  cases e with
  | connect => simp [BtTest.step, BtTest.onConnect] at h
  | disconnect => simp [BtTest.step, BtTest.onDisconnect] at h
  | write w =>
    simp only [BtTest.step, BtTest.onWrite] at h
    split at h <;> simp at h
  | loopIter now =>
    by_cases hg : s.deviceConnected = true ∧
        BtTest.NOTIFY_INTERVAL ≤ BtTest.elapsed s.lastNotifyTime now
    · exact hg.1
    · exfalso
      have hns := BtTest.loopStep_notifySends s now
      rw [if_neg hg] at hns
      have : v ∈ BtTest.notifySends (BtTest.loopStep s now).2 := by
        simp [BtTest.notifySends, List.mem_filterMap]
        exact ⟨BtTest.Out.notifySend v, h, rfl⟩
      rw [hns] at this
      simp at this

theorem BtTest.step_preserves_readCharVal (s : BtTest.St) (e : BtTest.Ev)
    (h : ∀ w, e = BtTest.Ev.write w → (cStr w).length = 0) :
    (BtTest.step s e).1.readCharVal = s.readCharVal := by
  cases e with
  | connect => rfl
  | disconnect => rfl
  | write w =>
    have hw := h w rfl
    simp [BtTest.step, BtTest.onWrite, hw]
  | loopIter now =>
    have h1 : (BtTest.notifyPhase s now).1.readCharVal = s.readCharVal := by
      simp only [BtTest.notifyPhase]
      split <;> rfl
    have h2 := (BtTest.reconnPhase_state (BtTest.notifyPhase s now).1).2.2.2.1
    calc (BtTest.step s (BtTest.Ev.loopIter now)).1.readCharVal
        = (BtTest.reconnPhase (BtTest.notifyPhase s now).1).1.readCharVal := rfl
      _ = (BtTest.notifyPhase s now).1.readCharVal := h2
      _ = s.readCharVal := h1

theorem BtTest.run_preserves_readCharVal : ∀ (evs : List BtTest.Ev) (s : BtTest.St),
    BtTest.hasAcceptedWrite evs = false →
    (BtTest.run s evs).1.readCharVal = s.readCharVal := by
  intro evs
  induction evs with
  | nil => intro s _; rfl
  | cons e es ih =>
    intro s h
    have hstep : (BtTest.step s e).1.readCharVal = s.readCharVal := by
      apply BtTest.step_preserves_readCharVal
      intro w hw
      subst hw
      simp only [BtTest.hasAcceptedWrite] at h
      by_cases hl : (cStr w).length > 0
      · rw [if_pos hl] at h
        exact absurd h (by simp)
      · omega
    have hes : BtTest.hasAcceptedWrite es = false := by
      cases e with
      | write w =>
        simp only [BtTest.hasAcceptedWrite] at h
        split at h
        · exact absurd h (by simp)
        · exact h
      | connect => simpa [BtTest.hasAcceptedWrite] using h
      | disconnect => simpa [BtTest.hasAcceptedWrite] using h
      | loopIter now => simpa [BtTest.hasAcceptedWrite] using h
    calc (BtTest.run s (e :: es)).1.readCharVal
        = (BtTest.run (BtTest.step s e).1 es).1.readCharVal := rfl
      _ = (BtTest.step s e).1.readCharVal := ih _ hes
      _ = s.readCharVal := hstep

theorem BtTest.hasWrite_false_imp : ∀ evs : List BtTest.Ev,
    BtTest.hasWrite evs = false → BtTest.hasAcceptedWrite evs = false := by
  intro evs
  induction evs with
  | nil => intro _; rfl
  | cons e es ih =>
    intro h
    cases e with
    | write w => simp [BtTest.hasWrite] at h
    | connect =>
      simp only [BtTest.hasWrite] at h
      simpa [BtTest.hasAcceptedWrite] using ih h
    | disconnect =>
      simp only [BtTest.hasWrite] at h
      simpa [BtTest.hasAcceptedWrite] using ih h
    | loopIter now =>
      simp only [BtTest.hasWrite] at h
      simpa [BtTest.hasAcceptedWrite] using ih h

theorem BleIno.run_counter : ∀ (evs : List BleIno.Ev) (s : BleIno.St),
    (BleIno.run s evs).1.counter = s.counter + BleIno.countReads evs := by
  intro evs
  induction evs with
  | nil => intro s; simp [BleIno.run, BleIno.countReads]
  | cons e es ih =>
    intro s
    cases e with
    | write v =>
      have h0 : (BleIno.run s (BleIno.Ev.write v :: es)).1
          = (BleIno.run (BleIno.step s (BleIno.Ev.write v)).1 es).1 := rfl
      rw [h0, ih]
      have h1 : (BleIno.step s (BleIno.Ev.write v)).1.counter = s.counter := by
        simp only [BleIno.step, BleIno.onWrite]
        split <;> rfl
      rw [h1]
      rfl
    | read =>
      have h0 : (BleIno.run s (BleIno.Ev.read :: es)).1
          = (BleIno.run (BleIno.step s BleIno.Ev.read).1 es).1 := rfl
      rw [h0, ih]
      have h1 : (BleIno.step s BleIno.Ev.read).1.counter = s.counter + 1 := rfl
      rw [h1]
      simp [BleIno.countReads]
      omega

theorem BtTest.reconnPhase_idle (s : BtTest.St)
    (hc : s.deviceConnected = false) (ho : s.oldDeviceConnected = false) :
    BtTest.reconnPhase s = (s, []) := by
  have hA : ¬(s.deviceConnected = false ∧ s.oldDeviceConnected = true) := by simp [ho]
  have hB : ¬(s.deviceConnected = true ∧ s.oldDeviceConnected = false) := by simp [hc]
  simp only [BtTest.reconnPhase, if_neg hA, if_neg hB]

theorem BtTest.step_no_adv (s : BtTest.St) (e : BtTest.Ev)
    (hc : s.deviceConnected = false) (ho : s.oldDeviceConnected = false)
    (hne : e ≠ BtTest.Ev.connect) :
    (BtTest.step s e).1.deviceConnected = false ∧
    (BtTest.step s e).1.oldDeviceConnected = false ∧
    BtTest.Out.advRestart ∉ (BtTest.step s e).2 := by
  cases e with
  | connect => exact absurd rfl hne
  | disconnect =>
    refine ⟨rfl, ho, ?_⟩
    simp [BtTest.step, BtTest.onDisconnect]
  | write w =>
    simp only [BtTest.step, BtTest.onWrite]
    split
    · exact ⟨hc, ho, by simp⟩
    · exact ⟨hc, ho, by simp⟩
  | loopIter now =>
    have hg : ¬(s.deviceConnected = true ∧
        BtTest.NOTIFY_INTERVAL ≤ BtTest.elapsed s.lastNotifyTime now) := by
      simp [hc]
    have hnp := BtTest.notifyPhase_neg s now hg
    have hrc := BtTest.reconnPhase_idle s hc ho
    have hstep : BtTest.step s (BtTest.Ev.loopIter now)
        = ((BtTest.reconnPhase (BtTest.notifyPhase s now).1).1,
           (BtTest.notifyPhase s now).2
             ++ (BtTest.reconnPhase (BtTest.notifyPhase s now).1).2
             ++ [BtTest.Out.delayMs 10]) := rfl
    rw [hstep, hnp, hrc]
    exact ⟨hc, ho, by simp⟩

theorem BtTest.run_no_adv : ∀ (evs : List BtTest.Ev) (s : BtTest.St),
    s.deviceConnected = false → s.oldDeviceConnected = false →
    BtTest.hasConnect evs = false →
    (BtTest.run s evs).1.deviceConnected = false ∧
    (BtTest.run s evs).1.oldDeviceConnected = false ∧
    BtTest.Out.advRestart ∉ (BtTest.run s evs).2 := by
  intro evs
  induction evs with
  | nil =>
    intro s hc ho _
    exact ⟨hc, ho, by simp [BtTest.run]⟩
  | cons e es ih =>
    intro s hc ho hnc
    have hne : e ≠ BtTest.Ev.connect := by
      intro he
      subst he
      simp [BtTest.hasConnect] at hnc
    have hes : BtTest.hasConnect es = false := by
      cases e with
      | connect => exact absurd rfl hne
      | disconnect => simpa [BtTest.hasConnect] using hnc
      | write w => simpa [BtTest.hasConnect] using hnc
      | loopIter now => simpa [BtTest.hasConnect] using hnc
    have hstep := BtTest.step_no_adv s e hc ho hne
    have hrest := ih (BtTest.step s e).1 hstep.1 hstep.2.1 hes
    refine ⟨hrest.1, hrest.2.1, ?_⟩
    have hsplit : (BtTest.run s (e :: es)).2
        = (BtTest.step s e).2 ++ (BtTest.run (BtTest.step s e).1 es).2 := rfl
    rw [hsplit]
    intro hmem
    rcases List.mem_append.mp hmem with hm | hm
    · exact hstep.2.2 hm
    · exact hrest.2.2 hm

/-! ## Claim theorems -/

/-- Claim C1: for every sequence of main-loop iterations and
connect/disconnect (and write) events, no step ever emits a Notify
transmission unless the state it ran in had `deviceConnected = true`; in
particular the notification scheduler never calls `notify()` at an
iteration where the device is not connected. -/
theorem notify_only_while_connected :
    ∀ (evs : List BtTest.Ev) (s0 pre : BtTest.St) (e : BtTest.Ev)
      (outs : List BtTest.Out) (v : Bytes),
      (pre, e, outs) ∈ BtTest.runTr s0 evs →
      BtTest.Out.notifySend v ∈ outs →
      pre.deviceConnected = true := by
  intro evs
  induction evs with
  | nil =>
    intro s0 pre e outs v hmem _
    simp [BtTest.runTr] at hmem
  | cons e0 es ih =>
    intro s0 pre e outs v hmem hv
    simp only [BtTest.runTr, List.mem_cons] at hmem
    rcases hmem with heq | htail
    · have h1 : pre = s0 := congrArg Prod.fst heq
      have h3 : outs = (BtTest.step s0 e0).2 := by
        have := congrArg (fun t => t.2.2) heq
        simpa using this
      subst h1
      rw [h3] at hv
      have he : e = e0 := by
        have := congrArg (fun t => t.2.1) heq
        simpa using this
      exact BtTest.step_notify_connected pre e0 v hv
    · exact ih _ _ _ _ _ htail hv

/-- Witness for C1: in the concrete trace connect-then-loop-at-3000, the
loop iteration that emits `tick:1` runs in a connected state. -/
theorem notify_only_while_connected_witness :
    (BtTest.onConnect BtTest.init).1.deviceConnected = true :=
  notify_only_while_connected [BtTest.Ev.connect, BtTest.Ev.loopIter 3000]
    BtTest.init (BtTest.onConnect BtTest.init).1 (BtTest.Ev.loopIter 3000)
    (BtTest.loopStep (BtTest.onConnect BtTest.init).1 3000).2
    (BtTest.tickRaw 1) (by decide) (by decide)

/-- Claim C2: on a loop iteration where the device is connected and the
computed elapsed time since the last notification is at least the 2000-unit
interval, the loop increments the counter (modulo `2 ^ 32`), sets the
notify characteristic to the composed `tick:<counter>` message, transmits
exactly that update, resets `lastNotifyTime` to the current time, and
refreshes the display with the new message and the last written value; on
every other iteration it changes none of counter, notify value or
`lastNotifyTime`, and transmits nothing. -/
theorem scheduler_tick_effects (s : BtTest.St) (now : Nat) :
    (s.deviceConnected = true →
      BtTest.NOTIFY_INTERVAL ≤ BtTest.elapsed s.lastNotifyTime now →
      (BtTest.loopStep s now).1.counter = (s.counter + 1) % U32 ∧
      (BtTest.loopStep s now).1.notifyCharVal = BtTest.tickRaw ((s.counter + 1) % U32) ∧
      (BtTest.loopStep s now).1.lastNotifyTime = now % U32 ∧
      (BtTest.loopStep s now).1.lastWritten = s.lastWritten ∧
      BtTest.notifySends (BtTest.loopStep s now).2 = [BtTest.tickRaw ((s.counter + 1) % U32)] ∧
      BtTest.Out.displayShow true (str2bytes "NOTIFY sent:")
          (BtTest.tickRaw ((s.counter + 1) % U32))
          (str2bytes "Last write: " ++ s.lastWritten) ∈ (BtTest.loopStep s now).2) ∧
    (¬(s.deviceConnected = true ∧
        BtTest.NOTIFY_INTERVAL ≤ BtTest.elapsed s.lastNotifyTime now) →
      (BtTest.loopStep s now).1.counter = s.counter ∧
      (BtTest.loopStep s now).1.notifyCharVal = s.notifyCharVal ∧
      (BtTest.loopStep s now).1.lastNotifyTime = s.lastNotifyTime ∧
      (BtTest.loopStep s now).1.readCharVal = s.readCharVal ∧
      (BtTest.loopStep s now).1.lastWritten = s.lastWritten ∧
      BtTest.notifySends (BtTest.loopStep s now).2 = []) := by
  constructor
  · intro h1 h2
    have hns := BtTest.loopStep_notifySends s now
    rw [if_pos ⟨h1, h2⟩] at hns
    have hrs := BtTest.reconnPhase_state (BtTest.notifyPhase s now).1
    have hnp := BtTest.notifyPhase_pos s now h1 h2
    refine ⟨?_, ?_, ?_, ?_, hns, ?_⟩
    · have : (BtTest.loopStep s now).1.counter = (BtTest.notifyPhase s now).1.counter := hrs.1
      rw [this, hnp]
    · have : (BtTest.loopStep s now).1.notifyCharVal
          = (BtTest.notifyPhase s now).1.notifyCharVal := hrs.2.2.1
      rw [this, hnp]
    · have : (BtTest.loopStep s now).1.lastNotifyTime
          = (BtTest.notifyPhase s now).1.lastNotifyTime := hrs.2.1
      rw [this, hnp]
    · have : (BtTest.loopStep s now).1.lastWritten
          = (BtTest.notifyPhase s now).1.lastWritten := hrs.2.2.2.2.1
      rw [this, hnp]
    · have hmem : BtTest.Out.displayShow true (str2bytes "NOTIFY sent:")
          (BtTest.tickRaw ((s.counter + 1) % U32))
          (str2bytes "Last write: " ++ s.lastWritten) ∈ (BtTest.notifyPhase s now).2 := by
        rw [hnp]
        simp
      have : (BtTest.loopStep s now).2
          = (BtTest.notifyPhase s now).2 ++ (BtTest.reconnPhase (BtTest.notifyPhase s now).1).2
            ++ [BtTest.Out.delayMs 10] := rfl
      rw [this]
      exact List.mem_append_left _ (List.mem_append_left _ hmem)
  · intro hg
    have hns := BtTest.loopStep_notifySends s now
    rw [if_neg hg] at hns
    have hnt := BtTest.loopStep_no_tick s now hg
    exact ⟨hnt.1, hnt.2.2.1, hnt.2.1, hnt.2.2.2.1, hnt.2.2.2.2, hns⟩

/-- Witness for C2: from the initial state with a client connected, the
loop iteration at time 2500 increments the counter to 1. -/
theorem scheduler_tick_effects_witness :
    (BtTest.loopStep { BtTest.init with deviceConnected := true } 2500).1.counter
      = (BtTest.init.counter + 1) % U32 :=
  ((scheduler_tick_effects { BtTest.init with deviceConnected := true } 2500).1
    rfl (by decide)).1

/-- Claim C5: in both variants, a write of the empty byte sequence leaves
the whole state unchanged (in particular `lastWritten` and the read and
notify characteristic values) and produces no output at all: no
notification, no display update, no log line. -/
theorem empty_write_is_noop (s : BtTest.St) (t : BleIno.St) :
    BtTest.onWrite s [] = (s, []) ∧ BleIno.onWrite t [] = (t, []) :=
  ⟨rfl, rfl⟩

/-- Claim C3 counterexample: the write payload `[72, 0, 33]` (three bytes,
well under any MTU) is accepted — it changes `lastWritten` — yet a
subsequent read returns `[72]`, not the written sequence: the handler
converts the payload through `.c_str()`, which truncates at the first NUL
byte. -/
theorem echo_write_nul_truncation_counterexample :
    (BtTest.run BtTest.init [BtTest.Ev.write [72, 0, 33]]).1.lastWritten = [72] ∧
    (BtTest.run BtTest.init [BtTest.Ev.write [72, 0, 33]]).1.readCharVal = [72] ∧
    (BtTest.run BtTest.init [BtTest.Ev.write [72, 0, 33]]).1.readCharVal ≠ [72, 0, 33] := by
  decide

/-- Claim C3 (amended): for every non-empty byte sequence `W` that contains
no NUL byte, writing `W` and then reading the Read characteristic — with no
intervening write — returns exactly `W`. -/
theorem echo_roundtrip_nul_free (s : BtTest.St) (v : Bytes) (evs : List BtTest.Ev)
    (hne : v ≠ []) (hnz : ∀ b ∈ v, b ≠ 0) (hw : BtTest.hasWrite evs = false) :
    (BtTest.run (BtTest.onWrite s v).1 evs).1.readCharVal = v := by
  have hcv : cStr v = v := cStr_of_ne_zero v hnz
  have hlen : v.length > 0 := by
    cases v with
    | nil => exact absurd rfl hne
    | cons a l => simp
  have h1 : (BtTest.onWrite s v).1.readCharVal = v := by
    simp [BtTest.onWrite, hcv, hlen]
  rw [BtTest.run_preserves_readCharVal evs (BtTest.onWrite s v).1
    (BtTest.hasWrite_false_imp evs hw), h1]

/-- Witness for C3 (amended): writing `"Hello"` and then reading after one
further loop iteration returns `"Hello"`. -/
theorem echo_roundtrip_nul_free_witness :
    (BtTest.run (BtTest.onWrite BtTest.init (str2bytes "Hello")).1
        [BtTest.Ev.loopIter 7]).1.readCharVal = str2bytes "Hello" :=
  echo_roundtrip_nul_free BtTest.init (str2bytes "Hello") [BtTest.Ev.loopIter 7]
    (by decide) (by decide) (by decide)

/-- Claim C4: in the computed-on-access variant, every read access
increments the counter by exactly 1 and serves the post-increment value as
decimal text, and the counter equals the number of reads performed since
startup — so the n-th read since startup returns the decimal text of n. -/
theorem computed_read_returns_count :
    (∀ s : BleIno.St,
      (BleIno.onRead s).1.counter = s.counter + 1 ∧
      (BleIno.onRead s).2.1 = natDecBytes (s.counter + 1) ∧
      (BleIno.onRead s).1.readCharVal = natDecBytes (s.counter + 1)) ∧
    (∀ evs : List BleIno.Ev,
      (BleIno.run BleIno.init evs).1.counter = BleIno.countReads evs) := by
  constructor
  · intro s
    exact ⟨rfl, rfl, rfl⟩
  · intro evs
    rw [BleIno.run_counter]
    have h0 : BleIno.init.counter = 0 := rfl
    rw [h0]
    exact Nat.zero_add _

/-- Claim C6 counterexample: per-iteration notification payloads of the
trace connect, loop at 100, loop at 2100 (sends `tick:1`), disconnect,
connect, loop at 4200.  The final loop iteration is the first one after the
reconnection, so no interval of connected time has elapsed since the
connection became active, yet it already sends `tick:2`: the elapsed-time
reference is not reset by the reconnection. -/
theorem reconnect_immediate_notify_counterexample :
    (BtTest.runTr BtTest.init
        [BtTest.Ev.connect, BtTest.Ev.loopIter 100, BtTest.Ev.loopIter 2100,
         BtTest.Ev.disconnect, BtTest.Ev.connect, BtTest.Ev.loopIter 4200]).map
        (fun t => BtTest.notifySends t.2.2)
      = [[], [], [BtTest.tickRaw 1], [], [], [BtTest.tickRaw 2]] := by
  decide

/-- Claim C6 (amended): while the device is not connected the scheduler
performs no work — a loop iteration changes neither the counter, nor the
time reference, nor the notify value, and transmits nothing — and there is
never a catch-up burst, since any single iteration transmits at most one
notification; but the elapsed-time reference is not reset when a connection
becomes active (`onConnect` leaves `lastNotifyTime` unchanged), so the
first notification after a reconnect may come before a full interval of
connected time has passed. -/
theorem disconnected_scheduler_noop (s : BtTest.St) (now : Nat)
    (h : s.deviceConnected = false) :
    (BtTest.loopStep s now).1.counter = s.counter ∧
    (BtTest.loopStep s now).1.lastNotifyTime = s.lastNotifyTime ∧
    (BtTest.loopStep s now).1.notifyCharVal = s.notifyCharVal ∧
    BtTest.notifySends (BtTest.loopStep s now).2 = [] ∧
    (BtTest.onConnect s).1.lastNotifyTime = s.lastNotifyTime ∧
    (∀ (t : BtTest.St) (m : Nat),
      (BtTest.notifySends (BtTest.loopStep t m).2).length ≤ 1) := by
  have hg : ¬(s.deviceConnected = true ∧
      BtTest.NOTIFY_INTERVAL ≤ BtTest.elapsed s.lastNotifyTime now) := by
    simp [h]
  have hnt := BtTest.loopStep_no_tick s now hg
  have hns := BtTest.loopStep_notifySends s now
  rw [if_neg hg] at hns
  refine ⟨hnt.1, hnt.2.1, hnt.2.2.1, hns, rfl, ?_⟩
  intro t m
  have := BtTest.loopStep_notifySends t m
  rw [this]
  split
  · simp
  · simp

/-- Witness for C6 (amended): from the initial (disconnected) state, the
loop iteration at time 9999 transmits nothing. -/
theorem disconnected_scheduler_noop_witness :
    BtTest.notifySends (BtTest.loopStep BtTest.init 9999).2 = [] :=
  (disconnected_scheduler_noop BtTest.init 9999 rfl).2.2.2.1

/-- Claim C7 counterexample: startup initialization itself changes the
Notify characteristic value: `setup()` in the computed-read variant moves
it from the empty default of a freshly created characteristic to the
placeholder `"waiting..."`, while no client is connected. -/
theorem setup_changes_notify_value_counterexample :
    (BleIno.setup BleIno.preSetup).notifyCharVal ≠ BleIno.preSetup.notifyCharVal ∧
    (BleIno.setup BleIno.preSetup).notifyCharVal = str2bytes "waiting..." := by
  decide

/-- Claim C7 (amended): after startup — which itself installs the fixed
placeholder in the computed-read variant — the Notify characteristic value
changes only at a connected scheduler iteration (echo variant: any step
that changes it is a loop iteration run while `deviceConnected` is true) or
as the direct result of a non-empty Write event (computed-read variant,
where the transport can only deliver a write over an active connection; the
handler itself performs no connection check). -/
theorem notify_value_change_sources :
    (∀ (s : BtTest.St) (e : BtTest.Ev),
      (BtTest.step s e).1.notifyCharVal ≠ s.notifyCharVal →
      s.deviceConnected = true ∧ ∃ now, e = BtTest.Ev.loopIter now) ∧
    (∀ (s : BleIno.St) (e : BleIno.Ev),
      (BleIno.step s e).1.notifyCharVal ≠ s.notifyCharVal →
      ∃ v, e = BleIno.Ev.write v ∧ v ≠ []) := by
  constructor
  · intro s e h
    cases e with
    | connect => exact absurd rfl h
    | disconnect => exact absurd rfl h
    | write w =>
      exfalso
      apply h
      simp only [BtTest.step, BtTest.onWrite]
      split <;> rfl
    | loopIter now =>
      by_cases hg : s.deviceConnected = true ∧
          BtTest.NOTIFY_INTERVAL ≤ BtTest.elapsed s.lastNotifyTime now
      · exact ⟨hg.1, now, rfl⟩
      · exact absurd (BtTest.loopStep_no_tick s now hg).2.2.1 h
  · intro s e h
    cases e with
    | read => exact absurd rfl h
    | write v =>
      by_cases hl : v.length > 0
      · refine ⟨v, rfl, ?_⟩
        intro hv
        subst hv
        simp at hl
      · exfalso
        apply h
        simp [BleIno.step, BleIno.onWrite, hl]

/-- Witness for C7 (amended): from the connected initial state, the loop
iteration at time 5000 changes the notify value, and the theorem yields
that the state was connected and the event was a loop iteration. -/
theorem notify_value_change_sources_witness :
    ({ BtTest.init with deviceConnected := true } : BtTest.St).deviceConnected = true ∧
    ∃ now, BtTest.Ev.loopIter 5000 = BtTest.Ev.loopIter now :=
  notify_value_change_sources.1 { BtTest.init with deviceConnected := true }
    (BtTest.Ev.loopIter 5000) (by decide)

/-- Claim C8 counterexample: a client connects and disconnects again before
any loop iteration runs, so the disconnect arrives while `deviceConnected`
is true — squarely a disconnect while Connected — but the reconnection
latch `oldDeviceConnected` was never set.  The subsequent loop iterations,
including ones far beyond 500 time-units after the disconnect, emit neither
the 500-unit grace delay nor an advertising restart: the restart branch is
gated on the latch and never fires. -/
theorem unlatched_disconnect_no_restart_counterexample :
    (BtTest.run BtTest.init [BtTest.Ev.connect]).1.deviceConnected = true ∧
    (BtTest.run BtTest.init
        [BtTest.Ev.connect, BtTest.Ev.disconnect]).1.oldDeviceConnected = false ∧
    BtTest.Out.delayMs 500 ∉ (BtTest.run BtTest.init
        [BtTest.Ev.connect, BtTest.Ev.disconnect, BtTest.Ev.loopIter 100,
         BtTest.Ev.loopIter 600, BtTest.Ev.loopIter 5000]).2 ∧
    BtTest.Out.advRestart ∉ (BtTest.run BtTest.init
        [BtTest.Ev.connect, BtTest.Ev.disconnect, BtTest.Ev.loopIter 100,
         BtTest.Ev.loopIter 600, BtTest.Ev.loopIter 5000]).2 := by
  decide

/-- Claim C8 (amended): after a disconnect event while Connected, provided
some loop iteration had already observed the connection and latched
`oldDeviceConnected`, the next loop iteration first blocks for the fixed
500-unit grace delay and then restarts advertising (in that order), clears
the latch, and a subsequent connect event results in the connected state
without any manual re-advertisement; but if the disconnect arrives before
any loop iteration observed the connection, the latch is still false and —
as long as no new connect event occurs — advertising is never restarted. -/
theorem grace_delay_then_advertise :
    (∀ (s : BtTest.St) (now : Nat),
      s.deviceConnected = true → s.oldDeviceConnected = true →
      (BtTest.onDisconnect s).1.deviceConnected = false ∧
      (BtTest.loopStep (BtTest.onDisconnect s).1 now).2 =
        [BtTest.Out.delayMs 500, BtTest.Out.advRestart,
         BtTest.Out.logB (str2bytes "Restarted advertising..."),
         BtTest.Out.displayShow false (str2bytes "Advertising...")
           (str2bytes "Name: BT_Test") [],
         BtTest.Out.delayMs 10] ∧
      (BtTest.loopStep (BtTest.onDisconnect s).1 now).1.oldDeviceConnected = false ∧
      (BtTest.onConnect (BtTest.loopStep (BtTest.onDisconnect s).1 now).1).1.deviceConnected
        = true) ∧
    (∀ (s : BtTest.St) (evs : List BtTest.Ev),
      s.deviceConnected = false → s.oldDeviceConnected = false →
      BtTest.hasConnect evs = false →
      BtTest.Out.advRestart ∉ (BtTest.run s evs).2) := by
  constructor
  · intro s now h1 h2
    have hdc : (BtTest.onDisconnect s).1.deviceConnected = false := rfl
    have hold : (BtTest.onDisconnect s).1.oldDeviceConnected = true := h2
    have hnp : BtTest.notifyPhase (BtTest.onDisconnect s).1 now
        = ((BtTest.onDisconnect s).1, []) :=
      BtTest.notifyPhase_neg _ _ (by simp [hdc])
    have hrc := BtTest.reconnPhase_pos (BtTest.onDisconnect s).1 hdc hold
    refine ⟨rfl, ?_, ?_, rfl⟩
    · show (BtTest.notifyPhase (BtTest.onDisconnect s).1 now).2
          ++ (BtTest.reconnPhase (BtTest.notifyPhase (BtTest.onDisconnect s).1 now).1).2
          ++ [BtTest.Out.delayMs 10] = _
      rw [hnp, hrc]
      rfl
    · show (BtTest.reconnPhase (BtTest.notifyPhase (BtTest.onDisconnect s).1 now).1).1.oldDeviceConnected
          = false
      rw [hnp, hrc]
  · intro s evs hc ho hnc
    exact (BtTest.run_no_adv evs s hc ho hnc).2.2

/-- Witness for C8 (amended): first, a concrete latched disconnect from a
connected state, observed by the loop at time 42, clears the latch; second,
in the concrete unlatched post-disconnect state reached by connect then
disconnect, two later loop iterations emit no advertising restart. -/
theorem grace_delay_then_advertise_witness :
    (BtTest.loopStep (BtTest.onDisconnect
        { BtTest.init with deviceConnected := true, oldDeviceConnected := true }).1
      42).1.oldDeviceConnected = false ∧
    BtTest.Out.advRestart ∉
      (BtTest.run (BtTest.run BtTest.init [BtTest.Ev.connect, BtTest.Ev.disconnect]).1
        [BtTest.Ev.loopIter 100, BtTest.Ev.loopIter 5000]).2 :=
  ⟨(grace_delay_then_advertise.1
      { BtTest.init with deviceConnected := true, oldDeviceConnected := true }
      42 rfl rfl).2.2.1,
   grace_delay_then_advertise.2
      (BtTest.run BtTest.init [BtTest.Ev.connect, BtTest.Ev.disconnect]).1
      [BtTest.Ev.loopIter 100, BtTest.Ev.loopIter 5000]
      (by decide) (by decide) (by decide)⟩

/-- Claim C9 counterexample: a client connects at time 2000 (after two idle
loop iterations) and the connection stays active through time 6000 — exactly
2 scheduler intervals — yet three notifications are sent, `tick:1`,
`tick:2`, `tick:3`: because `lastNotifyTime` is still 0 from startup, the
very first connected iteration already fires. -/
theorem two_intervals_three_ticks_counterexample :
    BtTest.notifySends (BtTest.run BtTest.init
        [BtTest.Ev.loopIter 0, BtTest.Ev.loopIter 1000, BtTest.Ev.connect,
         BtTest.Ev.loopIter 2000, BtTest.Ev.loopIter 3000, BtTest.Ev.loopIter 4000,
         BtTest.Ev.loopIter 5000, BtTest.Ev.loopIter 6000]).2
      = [BtTest.tickRaw 1, BtTest.tickRaw 2, BtTest.tickRaw 3] := by
  decide

/-- Claim C9 (amended): starting from startup (counter 0), if the client
connects right at startup and the connection remains active for exactly 2
scheduler intervals — the loop polling every 10 time-units from 0 through
4000 — exactly 2 notifications are transmitted, carrying `tick:1` and then
`tick:2` in that order. -/
theorem startup_connect_two_ticks :
    BtTest.notifySends (BtTest.run BtTest.init
        (BtTest.Ev.connect :: (List.range 401).map (fun k => BtTest.Ev.loopIter (10 * k)))).2
      = [BtTest.tickRaw 1, BtTest.tickRaw 2] := by
  decide

/-- Claim C10: in the echo variant, as long as no write has ever been
accepted, the Read characteristic still holds the startup placeholder
`"hello"` (the initial `lastWritten`), which is not the empty byte
sequence; so a read performed before any accepted write returns `"hello"`. -/
theorem read_before_write_returns_hello (evs : List BtTest.Ev)
    (h : BtTest.hasAcceptedWrite evs = false) :
    (BtTest.run BtTest.init evs).1.readCharVal = str2bytes "hello" ∧
    str2bytes "hello" ≠ ([] : Bytes) := by
  constructor
  · rw [BtTest.run_preserves_readCharVal evs BtTest.init h]
    decide
  · decide

/-- Witness for C10: a trace with a connect, an empty (NUL-only) write, a
loop iteration and a disconnect still serves `"hello"`. -/
theorem read_before_write_returns_hello_witness :
    (BtTest.run BtTest.init
        [BtTest.Ev.connect, BtTest.Ev.write [0, 0], BtTest.Ev.loopIter 2500,
         BtTest.Ev.disconnect]).1.readCharVal = str2bytes "hello" ∧
    str2bytes "hello" ≠ ([] : Bytes) :=
  read_before_write_returns_hello
    [BtTest.Ev.connect, BtTest.Ev.write [0, 0], BtTest.Ev.loopIter 2500,
     BtTest.Ev.disconnect] (by decide)
